import Mathlib

/-!
Verification of the trackerdb repository: the safe-parse URL wrapper
(src/lib/url-parse.ts) and the test helpers (src/test/helpers.ts).

The TypeScript code is shallowly embedded: JavaScript runtime values that may
be passed to safeParse become the inductive type Value; exceptions become
Except; the try/catch in safeParse becomes a match on the Except value.
The body of parseUrl delegates to the external tldts-experimental library and
its concrete logic is not present in the repository source, so it is modelled
from the specification (see the doc comments on the definitions below).
-/

namespace TrackerDb

/-- A JavaScript runtime value as it may be passed to safeParse: the TypeScript
signature says string, but the specification requires tolerating any value,
including numbers, null and undefined. -/
inductive Value where
  | str : String → Value
  | num : Int → Value
  | null : Value
  | undef : Value
deriving DecidableEq, Repr

/-- ParseError from url-parse.ts: a failure description carrying a
human-readable message and no partial result. -/
structure ParseError where
  message : String
deriving DecidableEq, Repr

/-- ParseResult from url-parse.ts: a successfully parsed URL, with the original
input, the registrable domain, the matched public suffix, and the
private/valid classification flags. -/
structure ParseResult where
  url : String
  domain : Option String
  publicSuffix : Option String
  isPrivate : Bool
  isValid : Bool
deriving DecidableEq, Repr

/-- SafeParseResult from url-parse.ts: the pair of nullable result and error
fields returned by safeParse. -/
structure SafeParseResult where
  result : Option ParseResult
  error : Option ParseError
deriving DecidableEq, Repr

/-- Maximum accepted input length (the specification bounds inputs at about
2048 characters; the regression suite rejects an input of length 2108). -/
def maxUrlLength : Nat := 2048

/-- The characters of the https scheme marker. -/
def httpsChars : List Char := ['h', 't', 't', 'p', 's', ':', '/', '/']

/-- The characters of the http scheme marker. -/
def httpChars : List Char := ['h', 't', 't', 'p', ':', '/', '/']

/-- Modelled from the spec: only the allow-listed schemes http and https are
accepted; an input that does not start with one of them (bare hostnames,
ftp and other schemes) is rejected. Returns the characters after the scheme
marker on success. -/
def schemeRest (cs : List Char) : Option (List Char) :=
  if cs.take 8 = httpsChars then some (cs.drop 8)
  else if cs.take 7 = httpChars then some (cs.drop 7)
  else none

/-- A character that terminates the host component of a URL: path, query,
fragment or port delimiter. -/
def isHostDelim (c : Char) : Bool :=
  c = '/' || c = '?' || c = '#' || c = ':'

/-- Remove a single trailing dot from a hostname (FQDN notation). -/
def stripTrailingDot (l : List Char) : List Char :=
  if l.getLast? = some '.' then l.dropLast else l

/-- Modelled from the spec: the host component is everything after the scheme
up to the first delimiter, with a trailing dot removed; only this component
drives the domain/validity classification. -/
def hostOf (rest : List Char) : List Char :=
  stripTrailingDot (rest.takeWhile (fun c => !isHostDelim c))

/-- Split a hostname into its dot-separated labels. -/
def splitOnDot : List Char → List (List Char)
  | [] => [[]]
  | c :: cs =>
    let r := splitOnDot cs
    if c = '.' then [] :: r
    else
      match r with
      | [] => [[c]]
      | h :: t => (c :: h) :: t

/-- Numeric value of a string of decimal digits. -/
def digitsToNat (l : List Char) : Nat :=
  l.foldl (fun acc c => acc * 10 + (c.toNat - 48)) 0

/-- A label that is a legal IPv4 octet: nonempty, all digits, at most 255. -/
def isIPv4Label (l : List Char) : Bool :=
  !l.isEmpty && l.all Char.isDigit && digitsToNat l ≤ 255

/-- A hostname whose four labels are all octets is an IPv4 literal. -/
def isIPv4 (labels : List (List Char)) : Bool :=
  labels.length = 4 && labels.all isIPv4Label

/-- Modelled from the spec: a finite fragment of the external library's public
suffix list, covering every suffix exercised by the regression suite, each
entry given as its list of labels. -/
def publicSuffixes : List (List (List Char)) :=
  [ ["com".data], ["org".data], ["net".data], ["uk".data],
    ["co".data, "uk".data], ["ac".data, "uk".data], ["gov".data, "uk".data],
    ["blogspot".data, "com".data], ["jp".data], ["de".data],
    ["io".data], ["ai".data], ["museum".data] ]

/-- The longest public suffix whose labels end the given label list, if any. -/
def bestSuffix (labels : List (List Char)) : Option (List (List Char)) :=
  (publicSuffixes.filter (fun s => s.isSuffixOf labels)).foldl
    (fun best s =>
      match best with
      | none => some s
      | some b => if b.length < s.length then some s else some b)
    none

/-- Join dot-separated labels back into a string. -/
def joinDots (ls : List (List Char)) : String :=
  String.mk (List.intercalate ['.'] ls)

/-- The last n elements of a list. -/
def lastN (n : Nat) (l : List α) : List α :=
  l.drop (l.length - n)

/-- The host-only part of a ParseResult: everything except the echoed URL. -/
structure HostClass where
  domain : Option String
  publicSuffix : Option String
  isPrivate : Bool
  isValid : Bool
deriving DecidableEq, Repr

/-- Modelled from the spec: the classification policy. IPv4 literals and
single-label hosts are private and invalid; a host ending in a recognized
public suffix with at least one extra label is valid, with the suffix and
the registrable domain (suffix plus one label) populated; every other host
is private and invalid. -/
def classifyHost (host : List Char) : HostClass :=
  let labels := splitOnDot host
  if isIPv4 labels || labels.length ≤ 1 then
    { domain := none, publicSuffix := none, isPrivate := true, isValid := false }
  else
    match bestSuffix labels with
    | some sfx =>
      if sfx.length < labels.length then
        { domain := some (joinDots (lastN (sfx.length + 1) labels)),
          publicSuffix := some (joinDots sfx),
          isPrivate := false, isValid := true }
      else
        { domain := none, publicSuffix := some (joinDots sfx),
          isPrivate := true, isValid := false }
    | none =>
      { domain := none, publicSuffix := none, isPrivate := true, isValid := false }

/-- Build the ParseResult: the classification of the host, plus the original
URL echoed back. -/
def classify (url : String) (host : List Char) : ParseResult :=
  { url := url
    domain := (classifyHost host).domain
    publicSuffix := (classifyHost host).publicSuffix
    isPrivate := (classifyHost host).isPrivate
    isValid := (classifyHost host).isValid }

/-- Modelled from the spec: the validation pipeline of parseUrl on the
characters of a string input (the body of parseUrl in url-parse.ts is a
placeholder delegating to the external library). Empty or whitespace-only
inputs, over-long inputs, missing or disallowed schemes, and empty hosts
are rejected with a ParseError; otherwise the host is classified. -/
def parseChars (orig : String) (cs : List Char) : Except ParseError ParseResult :=
  if cs.all Char.isWhitespace then
    .error { message := "Input must not be empty or whitespace-only" }
  else if maxUrlLength < cs.length then
    .error { message := "Input exceeds maximum length" }
  else
    match schemeRest cs with
    | none => .error { message := "Missing or disallowed scheme" }
    | some rest =>
      let host := hostOf rest
      if host.isEmpty then .error { message := "Invalid URL" }
      else .ok (classify orig host)

/-- Modelled from the spec: parseUrl validates its input and throws ParseError
on any violation; non-string values are rejected before any parsing. -/
def parseUrl : Value → Except ParseError ParseResult
  | .str url => parseChars url url.data
  | _ => .error { message := "Input must be a string" }

/-- safeParse from url-parse.ts: call parseUrl inside try/catch, returning
either the parsed result with a null error or a null result with the caught
error. -/
def safeParse (v : Value) : SafeParseResult :=
  match parseUrl v with
  | .ok result => { result := some result, error := none }
  | .error e => { result := none, error := some e }

/-! Embedding of src/test/helpers.ts. -/

/-- A JavaScript value as observed by a property read: reading a property that
an object does not have yields undefined. -/
inductive JSValue where
  | undefined
  | nullValue
  | parseResultValue : ParseResult → JSValue
  | parseErrorValue : ParseError → JSValue
deriving DecidableEq, Repr

/-- JavaScript truthiness: undefined and null are falsy; objects are truthy. -/
def truthy : JSValue → Bool
  | .undefined => false
  | .nullValue => false
  | .parseResultValue _ => true
  | .parseErrorValue _ => true

/-- JavaScript property access on the plain object returned by safeParse: the
object has exactly the properties result and error; reading any other
property name, such as isValid, yields undefined. -/
def SafeParseResult.getProp (r : SafeParseResult) (name : String) : JSValue :=
  if name = "result" then
    match r.result with
    | some p => .parseResultValue p
    | none => .nullValue
  else if name = "error" then
    match r.error with
    | some e => .parseErrorValue e
    | none => .nullValue
  else .undefined

/-- An assertion failure raised by node assert. -/
structure AssertionError where
  message : String
deriving DecidableEq, Repr

/-- Embedding of url.startsWith('http') on the characters of the string. -/
def startsWithHttp (url : String) : Bool :=
  url.data.take 4 = "http".data

/-- assertUrl from helpers.ts: call safeParse, then assert the truthiness of
the isValid property read off the returned SafeParseResult object, then
assert that the URL starts with http. An assert whose condition is falsy
raises an AssertionError with the given message. -/
def assertUrl (url : String) : Except AssertionError Unit :=
  let parsed := safeParse (Value.str url)
  if truthy (parsed.getProp "isValid") then
    if startsWithHttp url then .ok ()
    else .error { message := "$\x7burl\x7d does not start with http" }
  else
    .error { message := "$\x7burl\x7d is not a valid url or website is not public" }

/-- partition from helpers.ts: a fold over the input pushing each element onto
the end of the matches list when the predicate holds and onto the end of the
rest list otherwise. -/
def partition {α : Type u} (arr : List α) (pred : α → Bool) : List α × List α :=
  arr.foldl
    (fun acc x => if pred x then (acc.1 ++ [x], acc.2) else (acc.1, acc.2 ++ [x]))
    ([], [])

/-- Drop the slashes at the end of a path (node extname ignores them). -/
def dropTrailingSlashes (l : List Char) : List Char :=
  (l.reverse.dropWhile (fun c => c = '/')).reverse

/-- The final path component: the characters after the last slash, once
trailing slashes are dropped. -/
def baseNamePart (l : List Char) : List Char :=
  ((dropTrailingSlashes l).reverse.takeWhile (fun c => c ≠ '/')).reverse

/-- The extension of a base name under node's path.extname algorithm: the
substring from the last dot to the end, except that a name with no dot, a
name whose only dot is its first character (dot-files such as .eno), and
the name consisting of two dots yield the empty extension. -/
def extnameOfBase (base : List Char) : List Char :=
  let r := base.reverse
  let pre := r.takeWhile (fun c => c ≠ '.')
  if pre.length = r.length then []
  else if base = ['.', '.'] then []
  else if pre.length + 1 = r.length then []
  else (r.take (pre.length + 1)).reverse

/-- node path.extname on a posix path: the extension of its base name. -/
def extname (p : String) : String :=
  String.mk (extnameOfBase (baseNamePart p.data))

/-- SPEC_FILE_EXTENSION from helpers.ts. -/
def SPEC_FILE_EXTENSION : String := ".eno"

/-- isSpecFile from helpers.ts: a file is a spec file when its extension is
exactly the spec file extension. -/
def isSpecFile (file : String) : Bool :=
  extname file == SPEC_FILE_EXTENSION

/-- The over-long input of the regression suite: the https scheme followed by
2100 copies of the letter x, total length 2108. -/
def longInput : String := String.mk (httpsChars ++ List.replicate 2100 'x')

/-- The malformed and disallowed inputs of the regression suite: empty,
whitespace-only, scheme-less, disallowed scheme, over-long, and the
non-string values 123, null and undefined. -/
def badInputs : List Value :=
  [ .str "", .str "   ", .str "example.com", .str "ftp://example.com",
    .str longInput, .num 123, .null, .undef ]

/-- The valid public URLs named by the specification. -/
def validPublicUrls : List String :=
  [ "https://www.google.com", "https://example.co.uk",
    "https://example.blogspot.com", "https://münchen.de",
    "https://xn--e28h.jp" ]

/-- The private and non-public host URLs named by the specification. -/
def privateUrls : List String :=
  [ "http://127.0.0.1", "http://192.168.1.1", "http://10.0.0.1",
    "http://localhost" ]

/-! Theorems. -/

/-- Claim C1: safeParse never lets an exception escape uncaught: whenever the
underlying parseUrl raises any failure, safeParse catches it and returns the
pair of a null result and that ParseError as a value, so no call to
safeParse throws. -/
theorem safeParse_never_throws (v : Value) (e : ParseError)
    (h : parseUrl v = .error e) :
    safeParse v = { result := none, error := some e } := by
  unfold safeParse
  rw [h]

/-- Witness for claim C1 at the concrete input null: parseUrl fails there and
safeParse returns the failure as a value. -/
theorem safeParse_never_throws_witness :
    safeParse Value.null =
      { result := none, error := some { message := "Input must be a string" } } :=
  safeParse_never_throws Value.null { message := "Input must be a string" } rfl

/-- Claim C3: for every input, the SafeParseResult returned by safeParse has
exactly one of its two fields non-null: either the result is present and the
error is null, or the result is null and the error is present. -/
theorem safeParse_shape_invariant (v : Value) :
    ((safeParse v).result.isSome ∧ (safeParse v).error = none) ∨
    ((safeParse v).result = none ∧ (safeParse v).error.isSome) := by
  unfold safeParse
  cases parseUrl v <;> simp

/-- The over-long input is rejected with the length error: its length is 2108,
beyond the 2048 bound, so the pipeline stops at the length check. -/
theorem safeParse_longInput :
    safeParse (.str longInput) =
      { result := none, error := some { message := "Input exceeds maximum length" } } := by
  have h1 : Char.isWhitespace 'h' = false := by decide
  have hdata : longInput.data = httpsChars ++ List.replicate 2100 'x' := rfl
  have hws : (longInput.data.all Char.isWhitespace) = false := by
    rw [hdata]
    simp only [httpsChars, List.cons_append, List.all_cons, h1, Bool.false_and]
  have hlen : maxUrlLength < longInput.data.length := by
    rw [hdata, List.length_append, List.length_replicate]
    decide
  unfold safeParse parseUrl parseChars
  simp only [hws, Bool.false_eq_true, if_false, hlen, if_true]

/-- Claim C4: on every malformed or disallowed input of the regression suite -
empty, whitespace-only, scheme-less, disallowed scheme, over-long, and the
non-string values 123, null and undefined - safeParse returns a ParseError in
its error field with a null result and, being a total function, raises
nothing. -/
theorem safeParse_rejects_malformed_inputs :
    badInputs.all
      (fun v => (safeParse v).result.isNone && (safeParse v).error.isSome) = true := by
  simp only [badInputs, List.all_cons, List.all_nil, safeParse_longInput]
  decide

/-- Claim C5: on each of the valid public URLs, safeParse returns a null error
and a result with isValid true, a non-null domain and a non-null public
suffix. -/
theorem safeParse_accepts_valid_public_urls :
    validPublicUrls.all
      (fun u =>
        (safeParse (.str u)).error.isNone &&
        match (safeParse (.str u)).result with
        | some r => r.isValid && r.domain.isSome && r.publicSuffix.isSome
        | none => false) = true := by
  decide

/-- Claim C6: on each of the private or non-public host URLs - the IPv4
literals and localhost - the result of safeParse has isValid false and
isPrivate true. -/
theorem safeParse_private_hosts :
    privateUrls.all
      (fun u =>
        match (safeParse (.str u)).result with
        | some r => !r.isValid && r.isPrivate
        | none => false) = true := by
  decide

/-- Claim C8: safeParse is a deterministic pure function: the results of two
calls on the same input are structurally identical. -/
theorem safeParse_idempotent (v : Value) (r₁ r₂ : SafeParseResult)
    (h₁ : r₁ = safeParse v) (h₂ : r₂ = safeParse v) : r₁ = r₂ :=
  h₁.trans h₂.symm

/-- Witness for claim C8 at a concrete input. -/
theorem safeParse_idempotent_witness :
    safeParse (Value.str "https://example.com")
      = safeParse (Value.str "https://example.com") :=
  safeParse_idempotent (Value.str "https://example.com") _ _ rfl rfl

/-- Evidence for claim C2: at https://www.google.com the parsed result is
valid and the string starts with http, yet assertUrl raises its first
assertion, because the isValid property is read off the SafeParseResult
wrapper object - where no such property exists, so the read yields the falsy
undefined - instead of off the inner result. -/
theorem assertUrl_raises_on_valid_url :
    (safeParse (.str "https://www.google.com")).result.map ParseResult.isValid
      = some true ∧
    startsWithHttp "https://www.google.com" = true ∧
    assertUrl "https://www.google.com" =
      .error { message := "$\x7burl\x7d is not a valid url or website is not public" } := by
  refine ⟨rfl, rfl, rfl⟩

/-- Claim C10: isSpecFile holds exactly when the extension computed by node
path.extname is .eno; a bare dot-file named exactly .eno has the empty
extension and is not a spec file, while ordinary names ending in .eno are
spec files. -/
theorem isSpecFile_extension_eno :
    (∀ f : String, isSpecFile f = (extname f == ".eno")) ∧
    extname ".eno" = "" ∧
    isSpecFile ".eno" = false ∧
    isSpecFile "notes.eno" = true ∧
    isSpecFile "db/categories/news.eno" = true ∧
    isSpecFile "notes.md" = false ∧
    isSpecFile "notes.enoz" = false := by
  refine ⟨fun f => rfl, ?_, ?_, ?_, ?_, ?_, ?_⟩ <;> decide

/-- The loop of partition, generalized over the accumulator: it appends the
filtered matches and the filtered rest to the accumulator pair. -/
theorem partition_foldl {α : Type u} (pred : α → Bool) (arr : List α) :
    ∀ acc : List α × List α,
      arr.foldl
        (fun acc x => if pred x then (acc.1 ++ [x], acc.2) else (acc.1, acc.2 ++ [x]))
        acc
      = (acc.1 ++ arr.filter pred, acc.2 ++ arr.filter (fun x => !pred x)) := by
  induction arr with
  | nil => intro acc; simp
  | cons x xs ih =>
    intro acc
    cases h : pred x
    · simp [List.foldl_cons, h, ih, List.filter_cons, List.append_assoc]
    · simp [List.foldl_cons, h, ih, List.filter_cons, List.append_assoc]

/-- Claim C7: partition returns the elements satisfying the predicate in their
original relative order and the elements failing it in their original
relative order (the filter characterization), and the concatenation of the
two outputs is a permutation of the input, so every input element appears in
exactly one of the two outputs. -/
theorem partition_ordered_split {α : Type u} (arr : List α) (pred : α → Bool) :
    (partition arr pred).1 = arr.filter pred ∧
    (partition arr pred).2 = arr.filter (fun x => !pred x) ∧
    ((partition arr pred).1 ++ (partition arr pred).2).Perm arr := by
  have h := partition_foldl pred arr ([], [])
  simp only [partition, h, List.nil_append]
  refine ⟨trivial, trivial, ?_⟩
  exact List.filter_append_perm pred arr

/-- The characters of a string built from a character list. -/
theorem data_mk (l : List Char) : (String.mk l).data = l := rfl

/-- A list whose head fails the predicate, or is empty, has an empty
takeWhile. -/
theorem takeWhile_head_false (p : Char → Bool) (rest : List Char)
    (hr : rest = [] ∨ ∃ c cs, rest = c :: cs ∧ p c = false) :
    rest.takeWhile p = [] := by
  rcases hr with rfl | ⟨c, cs, rfl, hc⟩
  · rfl
  · simp [List.takeWhile_cons, hc]

/-- Evaluation of the parse pipeline on an https URL given as scheme, host and
trailing component: when the host holds no delimiter and the trailing
component is empty or opens with a delimiter, the pipeline reaches the
classification of the host alone. -/
theorem parseChars_https (orig : String) (host rest : List Char)
    (hnd : ∀ c ∈ host, isHostDelim c = false)
    (hr : rest = [] ∨ ∃ c cs, rest = c :: cs ∧ isHostDelim c = true)
    (hlen : 8 + host.length + rest.length ≤ 2048) :
    parseChars orig (httpsChars ++ host ++ rest) =
      if (stripTrailingDot host).isEmpty then
        Except.error { message := "Invalid URL" }
      else Except.ok (classify orig (stripTrailingDot host)) := by
  have h1 : Char.isWhitespace 'h' = false := by decide
  have hws : ((httpsChars ++ host ++ rest).all Char.isWhitespace) = false := by
    simp only [httpsChars, List.cons_append, List.all_cons, h1, Bool.false_and]
  have hlen2 : ¬ (maxUrlLength < (httpsChars ++ host ++ rest).length) := by
    simp only [List.length_append, httpsChars, List.length_cons, List.length_nil,
      maxUrlLength]
    omega
  have hsch : schemeRest (httpsChars ++ host ++ rest) = some (host ++ rest) := by
    unfold schemeRest
    rw [List.append_assoc]
    have ht : (httpsChars ++ (host ++ rest)).take 8 = httpsChars :=
      List.take_left' rfl
    have hd : (httpsChars ++ (host ++ rest)).drop 8 = host ++ rest :=
      List.drop_left' rfl
    rw [ht, hd]
    simp
  have hhost : hostOf (host ++ rest) = stripTrailingDot host := by
    unfold hostOf
    have h2 : (host ++ rest).takeWhile (fun c => !isHostDelim c)
        = host ++ rest.takeWhile (fun c => !isHostDelim c) := by
      refine List.takeWhile_append_of_pos ?_
      intro a ha
      simp [hnd a ha]
    have h3 : rest.takeWhile (fun c => !isHostDelim c) = [] := by
      refine takeWhile_head_false _ rest ?_
      rcases hr with h | ⟨c, cs, hcons, hc⟩
      · exact Or.inl h
      · exact Or.inr ⟨c, cs, hcons, by simp [hc]⟩
    rw [h2, h3, List.append_nil]
  unfold parseChars
  rw [hws]
  simp only [Bool.false_eq_true, if_false]
  rw [if_neg hlen2, hsch]
  simp only [hhost]

/-- Claim C9: only the host component drives classification: for an https URL
with a delimiter-free host, appending any component opened by a path, query,
fragment or port delimiter changes neither the domain nor the isValid field
of the safeParse result, nor the error. -/
theorem safeParse_host_only_classification (host rest : List Char)
    (hnd : ∀ c ∈ host, isHostDelim c = false)
    (hr : rest = [] ∨ ∃ c cs, rest = c :: cs ∧ isHostDelim c = true)
    (hlen : 8 + host.length + rest.length ≤ 2048) :
    ((safeParse (.str (String.mk (httpsChars ++ host ++ rest)))).result.map
        ParseResult.domain
      = (safeParse (.str (String.mk (httpsChars ++ host)))).result.map
        ParseResult.domain) ∧
    ((safeParse (.str (String.mk (httpsChars ++ host ++ rest)))).result.map
        ParseResult.isValid
      = (safeParse (.str (String.mk (httpsChars ++ host)))).result.map
        ParseResult.isValid) ∧
    ((safeParse (.str (String.mk (httpsChars ++ host ++ rest)))).error
      = (safeParse (.str (String.mk (httpsChars ++ host)))).error) := by
  have e1 := parseChars_https (String.mk (httpsChars ++ host ++ rest)) host rest
    hnd hr hlen
  have e2 := parseChars_https (String.mk (httpsChars ++ host)) host []
    hnd (Or.inl rfl) (by simp only [List.length_nil]; omega)
  rw [List.append_nil] at e2
  simp only [safeParse, parseUrl, data_mk, e1, e2]
  cases hc : (stripTrailingDot host).isEmpty
  · simp [hc, classify]
  · simp [hc]

/-- Witness for claim C9 at the host example.com with a path, query and
fragment appended. -/
theorem safeParse_host_only_classification_witness :
    ((safeParse (.str (String.mk (httpsChars ++ "example.com".data
          ++ "/path?q=1#frag".data)))).result.map ParseResult.domain
      = (safeParse (.str (String.mk (httpsChars ++ "example.com".data)))).result.map
        ParseResult.domain) ∧
    ((safeParse (.str (String.mk (httpsChars ++ "example.com".data
          ++ "/path?q=1#frag".data)))).result.map ParseResult.isValid
      = (safeParse (.str (String.mk (httpsChars ++ "example.com".data)))).result.map
        ParseResult.isValid) ∧
    ((safeParse (.str (String.mk (httpsChars ++ "example.com".data
          ++ "/path?q=1#frag".data)))).error
      = (safeParse (.str (String.mk (httpsChars ++ "example.com".data)))).error) :=
  safeParse_host_only_classification "example.com".data "/path?q=1#frag".data
    (by decide)
    (Or.inr ⟨'/', "path?q=1#frag".data, rfl, by decide⟩)
    (by decide)

end TrackerDb
